import Mathlib

/-!
Shallow embedding of `src/main.py` (Pinterest image fetcher / downloader).

The program has three core operations, embedded below:
- `fetch_image_urls` : two-stage URL resolution (JS-rendered `__PWS_DATA__`
  extraction, with a fallback to the internal `BaseSearchResource/get` JSON
  API).  Python exceptions are made explicit: stage 1 swallows every
  exception, stage 2 only catches `requests.RequestException`, so an
  `AttributeError` raised while walking a decoded-but-unexpected JSON payload
  escapes to the caller; this is modelled with `Except`.
- `download_image` : per-URL download loop with exponential backoff on
  HTTP 403/429, a permanent abort on any other non-200 status, and an abort
  on a transport exception.  Effects (requests issued, sleeps performed,
  file contents written) are recorded in the result.
- `download_images` : sequential driver assigning positional file names
  `image_<idx>.jpg` and counting successes.

Network and rendering behaviour is supplied by oracle parameters
(`Stage1Env`, `Stage2Env`, `GetResult`), so theorems quantify over every
behaviour of the upstream site.
-/

namespace ImgGen

/-- Python/JSON values, as far as the program inspects them. -/
inductive JValue where
  | null
  | bool (b : Bool)
  | num (n : Int)
  | str (s : String)
  | arr (elems : List JValue)
  | obj (fields : List (String × JValue))

/-- First binding of a key in a Python dict (keys are unique in a real dict,
so first-match lookup is faithful). -/
def lookupField (key : String) : List (String × JValue) → Option JValue
  | [] => none
  | (k, v) :: rest => if k = key then some v else lookupField key rest

/-- Python `v.get(key, default)`: only defined on dicts; on any other value
the attribute access raises (`AttributeError`), modelled as `.error`. -/
def pyGet (v : JValue) (key : String) (default : JValue) : Except Unit JValue :=
  match v with
  | .obj fields => .ok ((lookupField key fields).getD default)
  | _ => .error ()

/-- Python truthiness of a JSON value (`if image_url:` / `if u:`). -/
def pyTruthy : JValue → Bool
  | .null => false
  | .bool b => b
  | .num n => n != 0
  | .str s => !s.isEmpty
  | .arr elems => !elems.isEmpty
  | .obj fields => !fields.isEmpty

/-- The chain `entry.get("images", {}).get("orig", {}).get("url")` used by
both resolution stages (src/main.py lines 111-115 and 155). -/
def extractImageUrl (v : JValue) : Except Unit JValue := do
  let images ← pyGet v "images" (.obj [])
  let orig ← pyGet images "orig" (.obj [])
  pyGet orig "url" .null

/-- `true` iff the extraction chain runs without raising on this entry. -/
def chainOk (v : JValue) : Bool :=
  match extractImageUrl v with
  | .ok _ => true
  | .error _ => false

/-- The URL an entry contributes: the chain's value when it runs without
raising and is truthy, otherwise `none` (the entry is skipped). -/
def entryUrl (v : JValue) : Option JValue :=
  match extractImageUrl v with
  | .ok u => if pyTruthy u then some u else none
  | .error _ => none

/-- Python slice `xs[:limit]` with an `int` bound (negative bounds count
from the end). -/
def pySlice (xs : List JValue) (limit : Int) : List JValue :=
  if 0 ≤ limit then xs.take limit.toNat
  else xs.take ((xs.length : Int) + limit).toNat

/-- Stage-1 collection loop (src/main.py lines 110-119): walk `pins.values()`
appending each truthy `images.orig.url`, breaking once `len(urls) >= limit`.
An exception raised mid-walk is caught by the surrounding
`except Exception`, so the URLs appended before it are kept. -/
def walkPins (limit : Int) : List JValue → List JValue → List JValue
  | [], urls => urls
  | pin :: rest, urls =>
    match extractImageUrl pin with
    | .error _ => urls
    | .ok u =>
      if pyTruthy u then
        let urls' := urls ++ [u]
        if limit ≤ (urls'.length : Int) then urls'
        else walkPins limit rest urls'
      else walkPins limit rest urls

/-- Behaviour of the optional JS-rendering stage: the capability may be
absent (`HTMLSession is None`), the fetch/render may raise, the
`__PWS_DATA__` script tag may be missing or empty, `json.loads` may raise,
or it yields a decoded JSON document. -/
inductive Stage1Env where
  | unavailable
  | fetchRenderExn
  | noScript
  | badJson
  | payload (data : JValue)

/-- URLs produced by stage 1 (src/main.py lines 95-125).  Every exception in
this stage is swallowed, so the stage always yields a (possibly empty)
list. -/
def stage1Urls (env : Stage1Env) (limit : Int) : List JValue :=
  match env with
  | .payload data =>
    match (do
        let state ← pyGet data "initialReduxState" (.obj [])
        pyGet state "pins" (.obj [])) with
    | .error _ => []
    | .ok pins =>
      match pins with
      | .obj fields => walkPins limit (fields.map Prod.snd) []
      | _ => []
  | _ => []

/-- Behaviour of the fallback API call: either the request layer raises a
`requests.RequestException` (transport error, `raise_for_status`, or a JSON
decode error, which modern `requests` raises as a `RequestException`
subclass), or `r.json()` yields a decoded payload. -/
inductive Stage2Env where
  | reqExn
  | payload (p : JValue)

/-- Python iteration over the `results` value: lists yield elements, dicts
yield their keys, strings yield 1-character strings; anything else raises
`TypeError`. -/
def pyIter : JValue → Except Unit (List JValue)
  | .arr elems => .ok elems
  | .obj fields => .ok (fields.map (fun f => .str f.1))
  | .str s => .ok (s.toList.map (fun c => .str (String.mk [c])))
  | _ => .error ()

/-- Stage-2 collection loop (src/main.py lines 154-159).  Unlike stage 1 it
runs outside any handler for `AttributeError`, so a raising entry
propagates (`.error`). -/
def walkResults (limit : Int) : List JValue → List JValue → Except Unit (List JValue)
  | [], urls => .ok urls
  | res :: rest, urls =>
    match extractImageUrl res with
    | .error e => .error e
    | .ok u =>
      if pyTruthy u then
        let urls' := urls ++ [u]
        if limit ≤ (urls'.length : Int) then .ok urls'
        else walkResults limit rest urls'
      else walkResults limit rest urls

/-- Stage 2 (src/main.py lines 144-161): on a `RequestException` the handler
logs and keeps `urls` unchanged; on a decoded payload the code walks
`resource_response.data.results`, where only `RequestException` is caught,
so shape errors raise. -/
def stage2Run (env : Stage2Env) (limit : Int) (urls : List JValue) :
    Except Unit (List JValue) :=
  match env with
  | .reqExn => .ok urls
  | .payload p => do
    let rr ← pyGet p "resource_response" (.obj [])
    let d ← pyGet rr "data" (.obj [])
    let results ← pyGet d "results" (.arr [])
    let items ← pyIter results
    walkResults limit items urls

/-- Observable outcome of `fetch_image_urls`: the returned list (or the
exception that escaped), and how many stage-2 API requests were issued. -/
structure FetchTrace where
  result : Except Unit (List JValue)
  stage2Calls : Nat

/-- `fetch_image_urls(query, limit, session)` (src/main.py lines 86-165):
stage 1 first; if it yielded any URL, return them truncated to `limit`
without touching stage 2; otherwise issue the stage-2 API request and
return its (truncated) harvest. -/
def fetch_image_urls (s1 : Stage1Env) (s2 : Stage2Env) (limit : Int) : FetchTrace :=
  let urls := stage1Urls s1 limit
  if urls.isEmpty then
    match stage2Run s2 limit urls with
    | .error e => ⟨.error e, 1⟩
    | .ok urls' => ⟨.ok (pySlice urls' limit), 1⟩
  else ⟨.ok (pySlice urls limit), 0⟩

/-- Outcome of one `session.get(url)` inside `download_image`: a
`requests.RequestException`, or a response with a status code and body. -/
inductive GetResult where
  | exn
  | resp (status : Int) (content : String)

/-- Effects of one `download_image` call: the returned flag, the number of
GET requests issued, the sleep durations performed (in order), and the
contents written to the destination path. -/
structure DlResult where
  success : Bool
  numRequests : Nat
  sleeps : List ℚ
  writes : List String

/-- The `for attempt in range(max_retries)` body (src/main.py lines
179-204): transport error breaks; 200 writes and returns `True`; 403/429
sleeps `backoff_factor * 2 ** attempt` and continues; any other status
breaks. -/
def download_image_loop (net : Nat → GetResult) (backoff_factor : ℚ) :
    Nat → Nat → DlResult
  | _, 0 => ⟨false, 0, [], []⟩
  | attempt, fuel + 1 =>
    match net attempt with
    | .exn => ⟨false, 1, [], []⟩
    | .resp status content =>
      if status = 200 then ⟨true, 1, [], [content]⟩
      else if status = 403 ∨ status = 429 then
        let r := download_image_loop net backoff_factor (attempt + 1) fuel
        ⟨r.success, r.numRequests + 1, backoff_factor * 2 ^ attempt :: r.sleeps, r.writes⟩
      else ⟨false, 1, [], []⟩

/-- `download_image(url, dest_path, session, max_retries, backoff_factor)`
(src/main.py lines 171-207).  `max_retries` is a Python `int`; `range`
of a non-positive bound is empty. -/
def download_image (net : Nat → GetResult) (backoff_factor : ℚ)
    (max_retries : Int) : DlResult :=
  download_image_loop net backoff_factor 0 max_retries.toNat

/-- Positional destination file name `os.path.join(output_dir,
f"image_{idx}.jpg")` (src/main.py line 221). -/
def posName (output_dir : String) (idx : Nat) : String :=
  output_dir ++ "/image_" ++ toString idx ++ ".jpg"

/-- The `for idx, url in enumerate(urls, start=1)` loop of
`download_images` (src/main.py lines 220-225), returning the success count
and the (file name, content) writes in order. -/
def download_images_go {α : Type} (output_dir : String) (net : α → Nat → GetResult)
    (max_retries : Int) (backoff_factor : ℚ) :
    Nat → List α → Nat × List (String × String)
  | _, [] => (0, [])
  | idx, u :: rest =>
    let r := download_image (net u) backoff_factor max_retries
    let tail := download_images_go output_dir net max_retries backoff_factor (idx + 1) rest
    ((if r.success then 1 else 0) + tail.1,
     r.writes.map (fun c => (posName output_dir idx, c)) ++ tail.2)

/-- `download_images(urls, output_dir, session, max_retries, backoff_factor)`
(src/main.py lines 210-226). -/
def download_images {α : Type} (urls : List α) (output_dir : String)
    (net : α → Nat → GetResult) (max_retries : Int) (backoff_factor : ℚ) :
    Nat × List (String × String) :=
  download_images_go output_dir net max_retries backoff_factor 1 urls

/-- `main` after argument parsing (src/main.py lines 266-282): resolve, exit
2 on an empty candidate list, else download with `max_retries=3`,
`backoff_factor=1.0` and exit 0 iff at least one download succeeded, else
1.  An exception escaping `fetch_image_urls` propagates (`.error`). -/
def main_run (s1 : Stage1Env) (s2 : Stage2Env) (numImages : Int)
    (output : String) (net : JValue → Nat → GetResult) : Except Unit Int :=
  match (fetch_image_urls s1 s2 numImages).result with
  | .error e => .error e
  | .ok urls =>
    if urls.isEmpty then .ok 2
    else .ok (if 0 < (download_images urls output net 3 1).1 then 0 else 1)

/-- A directory's files, as an association of name to content; a fresh
write is consed on, and `fsLookup` sees the most recent write first, which
models `open(dest_path, "wb")` truncating and overwriting. -/
def applyWrites (fs : List (String × String)) : List (String × String) → List (String × String)
  | [] => fs
  | w :: ws => applyWrites (w :: fs) ws

/-- Content of the file named `n`, i.e. its most recent write. -/
def fsLookup (n : String) : List (String × String) → Option String
  | [] => none
  | (m, c) :: rest => if m = n then some c else fsLookup n rest

/-- Names of the files present in the directory. -/
def fsNames (fs : List (String × String)) : Finset String :=
  (fs.map Prod.fst).toFinset

/-- Network behaviour for the aggregate example: one URL that answers 200
with body "A", one that always answers 403, one that answers 200 with
body "C". -/
def netEx : String → Nat → GetResult
  | "a", _ => .resp 200 "A"
  | "b", _ => .resp 403 "B"
  | _, _ => .resp 200 "C"

/-! ## Helper lemmas -/

theorem loop_succ (net : Nat → GetResult) (bf : ℚ) (attempt fuel : Nat) :
    download_image_loop net bf attempt (fuel + 1) =
      match net attempt with
      | .exn => ⟨false, 1, [], []⟩
      | .resp status content =>
        if status = 200 then ⟨true, 1, [], [content]⟩
        else if status = 403 ∨ status = 429 then
          let r := download_image_loop net bf (attempt + 1) fuel
          ⟨r.success, r.numRequests + 1, bf * 2 ^ attempt :: r.sleeps, r.writes⟩
        else ⟨false, 1, [], []⟩ := rfl

theorem download_images_go_count {α : Type} (dir : String) (net : α → Nat → GetResult)
    (mr : Int) (bf : ℚ) :
    ∀ (urls : List α) (idx : Nat),
      (download_images_go dir net mr bf idx urls).1 =
        urls.countP (fun u => (download_image (net u) bf mr).success)
  | [], _ => by simp [download_images_go]
  | u :: rest, idx => by
    simp only [download_images_go, List.countP_cons,
      download_images_go_count dir net mr bf rest (idx + 1)]
    cases (download_image (net u) bf mr).success <;> simp [Nat.add_comm]

theorem walkPins_nonpos_len (limit : Int) (h : limit ≤ 0) :
    ∀ entries : List JValue, (walkPins limit entries []).length ≤ 1
  | [] => by simp [walkPins]
  | pin :: rest => by
    simp only [walkPins]
    cases hx : extractImageUrl pin with
    | error e => simp
    | ok u =>
      by_cases ht : pyTruthy u
      · have hcond : limit ≤ (1 : Int) := by omega
        simp [ht, hcond]
      · simpa [ht] using walkPins_nonpos_len limit h rest

theorem walkResults_nonpos_len (limit : Int) (h : limit ≤ 0) :
    ∀ (entries : List JValue) (l : List JValue),
      walkResults limit entries [] = .ok l → l.length ≤ 1
  | [], l => by
    intro hl
    simp only [walkResults] at hl
    cases hl
    simp
  | res :: rest, l => by
    intro hl
    simp only [walkResults] at hl
    cases hx : extractImageUrl res with
    | error e => simp only [hx] at hl; cases hl
    | ok u =>
      simp only [hx] at hl
      by_cases ht : pyTruthy u
      · have hcond : limit ≤ ((([] : List JValue) ++ [u]).length : Int) := by
          simp; omega
        rw [if_pos ht, if_pos hcond] at hl
        cases hl
        simp
      · rw [if_neg ht] at hl
        exact walkResults_nonpos_len limit h rest l hl

theorem stage1Urls_nonpos_len (env : Stage1Env) (limit : Int) (h : limit ≤ 0) :
    (stage1Urls env limit).length ≤ 1 := by
  cases env with
  | payload data =>
    simp only [stage1Urls]
    cases hg : (do
        let state ← pyGet data "initialReduxState" (.obj [])
        pyGet state "pins" (.obj [])) with
    | error e => simp
    | ok pins =>
      cases pins
      case obj fields => simpa using walkPins_nonpos_len limit h (fields.map Prod.snd)
      all_goals simp
  | unavailable => simp [stage1Urls]
  | fetchRenderExn => simp [stage1Urls]
  | noScript => simp [stage1Urls]
  | badJson => simp [stage1Urls]

theorem stage2Run_nonpos_len (env : Stage2Env) (limit : Int) (h : limit ≤ 0)
    (l : List JValue) (hrun : stage2Run env limit [] = .ok l) : l.length ≤ 1 := by
  cases env with
  | reqExn =>
    simp only [stage2Run] at hrun
    cases hrun
    simp
  | payload p =>
    simp only [stage2Run, bind, Except.bind] at hrun
    cases h1 : pyGet p "resource_response" (.obj []) with
    | error e => simp only [h1] at hrun; cases hrun
    | ok rr =>
      simp only [h1] at hrun
      cases h2 : pyGet rr "data" (.obj []) with
      | error e => simp only [h2] at hrun; cases hrun
      | ok d =>
        simp only [h2] at hrun
        cases h3 : pyGet d "results" (.arr []) with
        | error e => simp only [h3] at hrun; cases hrun
        | ok results =>
          simp only [h3] at hrun
          cases h4 : pyIter results with
          | error e => simp only [h4] at hrun; cases hrun
          | ok items =>
            simp only [h4] at hrun
            exact walkResults_nonpos_len limit h items l hrun

theorem pySlice_nonpos (xs : List JValue) (limit : Int) (h : limit ≤ 0)
    (hx : xs.length ≤ 1) : pySlice xs limit = [] := by
  unfold pySlice
  by_cases h0 : 0 ≤ limit
  · have hz : limit = 0 := le_antisymm h h0
    simp [hz]
  · have hz : ((xs.length : Int) + limit).toNat = 0 := by omega
    simp [h0, hz]

/-! ## Claims about the resolver -/

/-- C1 counterexample: with `limit = 0`, the rendering capability absent and
a normal stage-2 payload, `fetch_image_urls` still issues the stage-2 API
request — the implementation does not short-circuit on a non-positive
limit, contradicting the claim's "issues no fallback network request". -/
theorem c1_counterexample :
    (fetch_image_urls .unavailable (.payload (.obj [])) 0).stage2Calls ≠ 0 := by
  have h1 : (fetch_image_urls .unavailable (.payload (.obj [])) 0).stage2Calls = 1 :=
    rfl
  simp [h1]

/-- C1 (amended): for every `limit <= 0`, whenever `fetch_image_urls`
returns normally it returns the empty list; but the stage-2 request is not
short-circuited (it is issued whenever stage 1 yields nothing, see the
counterexample). -/
theorem c1_nonpos_limit_empty (s1 : Stage1Env) (s2 : Stage2Env) (limit : Int)
    (l : List JValue) (h : limit ≤ 0)
    (hres : (fetch_image_urls s1 s2 limit).result = .ok l) : l = [] := by
  unfold fetch_image_urls at hres
  by_cases he : (stage1Urls s1 limit).isEmpty
  · rw [if_pos he] at hres
    have he' : stage1Urls s1 limit = [] := List.isEmpty_iff.mp he
    cases hrun : stage2Run s2 limit (stage1Urls s1 limit) with
    | error e => rw [hrun] at hres; cases hres
    | ok urls' =>
      rw [hrun] at hres
      cases hres
      rw [he'] at hrun
      exact pySlice_nonpos urls' limit h (stage2Run_nonpos_len s2 limit h urls' hrun)
  · rw [if_neg he] at hres
    cases hres
    exact pySlice_nonpos _ limit h (stage1Urls_nonpos_len s1 limit h)

theorem c1_witness :
    (fetch_image_urls .unavailable .reqExn 0).result = .ok [] ∧
      ([] : List JValue) = [] :=
  ⟨rfl, c1_nonpos_limit_empty .unavailable .reqExn 0 [] (by decide) rfl⟩

/-- C2: the fallback stage is invoked exactly once when stage 1 yields no
URL, and never when stage 1 yields a non-empty list — in which case stage
1's list is returned immediately, truncated to `limit`. -/
theorem c2_fallback_iff_primary_empty (s1 : Stage1Env) (s2 : Stage2Env)
    (limit : Int) :
    (stage1Urls s1 limit ≠ [] →
      (fetch_image_urls s1 s2 limit).stage2Calls = 0 ∧
      (fetch_image_urls s1 s2 limit).result =
        .ok (pySlice (stage1Urls s1 limit) limit)) ∧
    (stage1Urls s1 limit = [] →
      (fetch_image_urls s1 s2 limit).stage2Calls = 1) := by
  constructor
  · intro hne
    have he : (stage1Urls s1 limit).isEmpty = false := by
      cases hcase : stage1Urls s1 limit with
      | nil => exact absurd hcase hne
      | cons a l => rfl
    simp [fetch_image_urls, he]
  · intro heq
    have he : (stage1Urls s1 limit).isEmpty = true := by simp [heq]
    simp only [fetch_image_urls, he, if_pos]
    cases stage2Run s2 limit (stage1Urls s1 limit) <;> rfl

/-- A well-formed pin entry used by concrete witnesses. -/
def pinEx : JValue :=
  .obj [("images", .obj [("orig", .obj [("url", .str "http://img/1.jpg")])])]

/-- A rendered stage-1 payload holding one well-formed pin. -/
def s1PayloadEx : JValue :=
  .obj [("initialReduxState", .obj [("pins", .obj [("p1", pinEx)])])]

theorem c2_witness :
    (fetch_image_urls (.payload s1PayloadEx) .reqExn 5).stage2Calls = 0 ∧
      (fetch_image_urls (.payload s1PayloadEx) .reqExn 5).result =
        .ok (pySlice (stage1Urls (.payload s1PayloadEx) 5) 5) :=
  (c2_fallback_iff_primary_empty (.payload s1PayloadEx) .reqExn 5).1
    (by rw [show stage1Urls (.payload s1PayloadEx) 5 = [.str "http://img/1.jpg"]
          from rfl]
        exact List.cons_ne_nil _ _)

/-- C3 counterexample: a stage-2 response whose body decodes to a JSON
array (valid JSON, unexpected shape) makes `payload.get(...)` raise an
`AttributeError` that no handler catches, so `fetch_image_urls` raises to
its caller instead of returning a list. -/
theorem c3_counterexample :
    (fetch_image_urls .unavailable (.payload (.arr [])) 5).result = .error () :=
  rfl

/-- C3 (amended): `fetch_image_urls` never raises provided every stage-2
failure is a `requests.RequestException` (transport error, non-2xx from
`raise_for_status`, or a JSON decode error): stage-1 exceptions are always
swallowed, and on total failure the empty list is returned.  A decoded
stage-2 payload of unexpected shape, however, raises (see the
counterexample). -/
theorem c3_no_raise_on_request_exception (s1 : Stage1Env) (limit : Int) :
    (∃ l, (fetch_image_urls s1 .reqExn limit).result = .ok l) ∧
    (stage1Urls s1 limit = [] →
      (fetch_image_urls s1 .reqExn limit).result = .ok []) := by
  constructor
  · by_cases he : (stage1Urls s1 limit).isEmpty
    · refine ⟨pySlice (stage1Urls s1 limit) limit, ?_⟩
      simp [fetch_image_urls, he, stage2Run]
    · exact ⟨pySlice (stage1Urls s1 limit) limit, by simp [fetch_image_urls, he]⟩
  · intro heq
    have he : (stage1Urls s1 limit).isEmpty = true := by simp [heq]
    simp [fetch_image_urls, he, stage2Run, heq, pySlice]

theorem c3_witness :
    (fetch_image_urls .unavailable .reqExn 7).result = .ok [] :=
  (c3_no_raise_on_request_exception .unavailable 7).2 rfl

theorem walkPins_all_ok (limit : Int) :
    ∀ (entries : List JValue) (acc : List JValue),
      entries.all chainOk = true → (acc.length : Int) < limit →
      walkPins limit entries acc = (acc ++ entries.filterMap entryUrl).take limit.toNat
  | [], acc => by
    intro _ hacc
    have hle : acc.length ≤ limit.toNat := by omega
    simp [walkPins, List.take_of_length_le hle]
  | e :: rest, acc => by
    intro hall hacc
    simp only [List.all_cons, Bool.and_eq_true] at hall
    obtain ⟨he, hrest⟩ := hall
    cases hx : extractImageUrl e with
    | error err => simp [chainOk, hx] at he
    | ok u =>
      simp only [walkPins, hx]
      by_cases ht : pyTruthy u
      · have hurl : entryUrl e = some u := by simp [entryUrl, hx, ht]
        rw [if_pos ht]
        by_cases hb : limit ≤ ((acc ++ [u]).length : Int)
        · rw [if_pos hb]
          have hlim : limit.toNat = acc.length + 1 := by
            simp [List.length_append] at hb; omega
          rw [List.filterMap_cons, hurl, hlim, List.take_append]
          simp
        · rw [if_neg hb]
          have hacc' : (((acc ++ [u]).length : Nat) : Int) < limit := by
            simp only [not_le] at hb; exact hb
          rw [walkPins_all_ok limit rest (acc ++ [u]) hrest hacc']
          simp [List.filterMap_cons, hurl]
      · have hurl : entryUrl e = none := by simp [entryUrl, hx, ht]
        rw [if_neg ht]
        rw [walkPins_all_ok limit rest acc hrest hacc]
        simp [List.filterMap_cons, hurl]

theorem walkResults_all_ok (limit : Int) :
    ∀ (entries : List JValue) (acc : List JValue),
      entries.all chainOk = true → (acc.length : Int) < limit →
      walkResults limit entries acc =
        .ok ((acc ++ entries.filterMap entryUrl).take limit.toNat)
  | [], acc => by
    intro _ hacc
    have hle : acc.length ≤ limit.toNat := by omega
    simp [walkResults, List.take_of_length_le hle]
  | e :: rest, acc => by
    intro hall hacc
    simp only [List.all_cons, Bool.and_eq_true] at hall
    obtain ⟨he, hrest⟩ := hall
    cases hx : extractImageUrl e with
    | error err => simp [chainOk, hx] at he
    | ok u =>
      simp only [walkResults, hx]
      by_cases ht : pyTruthy u
      · have hurl : entryUrl e = some u := by simp [entryUrl, hx, ht]
        rw [if_pos ht]
        by_cases hb : limit ≤ ((acc ++ [u]).length : Int)
        · rw [if_pos hb]
          have hlim : limit.toNat = acc.length + 1 := by
            simp [List.length_append] at hb; omega
          rw [List.filterMap_cons, hurl, hlim, List.take_append]
          simp
        · rw [if_neg hb]
          have hacc' : (((acc ++ [u]).length : Nat) : Int) < limit := by
            simp only [not_le] at hb; exact hb
          rw [walkResults_all_ok limit rest (acc ++ [u]) hrest hacc']
          simp [List.filterMap_cons, hurl]
      · have hurl : entryUrl e = none := by simp [entryUrl, hx, ht]
        rw [if_neg ht]
        rw [walkResults_all_ok limit rest acc hrest hacc]
        simp [List.filterMap_cons, hurl]

/-- C7: in both resolution stages, entries whose extraction chain runs but
finds no (truthy) `images.orig.url` are skipped silently: the harvested
list is exactly the well-formed entries' URLs in discovery order, truncated
at `limit`, with interleaved malformed entries affecting neither count nor
order. -/
theorem c7_malformed_entries_skipped (limit : Int)
    (pins : List (String × JValue)) (rs : List JValue)
    (hlim : 1 ≤ limit)
    (hpins : (pins.map Prod.snd).all chainOk = true)
    (hrs : rs.all chainOk = true) :
    stage1Urls (.payload (.obj [("initialReduxState", .obj [("pins", .obj pins)])]))
        limit
      = ((pins.map Prod.snd).filterMap entryUrl).take limit.toNat ∧
    stage2Run (.payload (.obj [("resource_response",
        .obj [("data", .obj [("results", .arr rs)])])])) limit []
      = .ok ((rs.filterMap entryUrl).take limit.toNat) := by
  have hz : ((([] : List JValue)).length : Int) < limit := by simp; omega
  constructor
  · have hstage : stage1Urls (.payload (.obj [("initialReduxState",
        .obj [("pins", .obj pins)])])) limit
        = walkPins limit (pins.map Prod.snd) [] := rfl
    rw [hstage]
    simpa using walkPins_all_ok limit (pins.map Prod.snd) [] hpins hz
  · have hstage : stage2Run (.payload (.obj [("resource_response", .obj [("data",
        .obj [("results", .arr rs)])])])) limit []
        = walkResults limit rs [] := rfl
    rw [hstage]
    simpa using walkResults_all_ok limit rs [] hrs hz

/-- A pin entry that is a dict but lacks `images.orig.url`. -/
def badPinEx : JValue := .obj [("dominant_color", .str "#fff")]

/-- A second well-formed pin entry. -/
def pinEx2 : JValue :=
  .obj [("images", .obj [("orig", .obj [("url", .str "http://img/2.jpg")])])]

theorem c7_witness :
    stage1Urls (.payload (.obj [("initialReduxState", .obj [("pins",
        .obj [("a", pinEx), ("bad", badPinEx), ("b", pinEx2)])])])) 5
      = [.str "http://img/1.jpg", .str "http://img/2.jpg"] ∧
    stage2Run (.payload (.obj [("resource_response", .obj [("data",
        .obj [("results", .arr [pinEx, badPinEx, pinEx2])])])])) 5 []
      = .ok [.str "http://img/1.jpg", .str "http://img/2.jpg"] :=
  c7_malformed_entries_skipped 5 [("a", pinEx), ("bad", badPinEx), ("b", pinEx2)]
    [pinEx, badPinEx, pinEx2] (by decide) rfl rfl

/-! ## Claims about the download layer -/

/-- C4: for a URL answering 429, 429 then 200 and `maxRetries >= 3`,
`download_image` succeeds on the third attempt, issuing exactly three
requests, sleeping exactly twice with durations `backoffFactor * 2 ^ 0` and
`backoffFactor * 2 ^ 1`, and writing the third response's body. -/
theorem c4_download_image_retry_then_success (net : Nat → GetResult) (bf : ℚ)
    (mr : Int) (c0 c1 c2 : String)
    (h0 : net 0 = .resp 429 c0) (h1 : net 1 = .resp 429 c1)
    (h2 : net 2 = .resp 200 c2) (hmr : 3 ≤ mr) :
    download_image net bf mr = ⟨true, 3, [bf * 2 ^ 0, bf * 2 ^ 1], [c2]⟩ := by
  obtain ⟨k, hk⟩ : ∃ k, mr.toNat = k + 3 := ⟨mr.toNat - 3, by omega⟩
  simp [download_image, hk, show k + 3 = k + 2 + 1 from rfl, loop_succ, h0, h1, h2,
    show k + 2 = k + 1 + 1 from rfl, show k + 1 = k + 0 + 1 from rfl]

theorem c4_witness :
    download_image
        (fun n => if n = 0 then .resp 429 "a" else if n = 1 then .resp 429 "b"
          else .resp 200 "c") 1 3 =
      ⟨true, 3, [1 * 2 ^ 0, 1 * 2 ^ 1], ["c"]⟩ :=
  c4_download_image_retry_then_success
    (fun n => if n = 0 then .resp 429 "a" else if n = 1 then .resp 429 "b"
      else .resp 200 "c") 1 3 "a" "b" "c" rfl rfl rfl (by decide)

/-- C5: for a URL whose first response status is neither 200 nor 403 nor
429 (e.g. 404), and at least one permitted attempt, `download_image`
returns failure after exactly one request, with no sleep and no write. -/
theorem c5_download_image_permanent_failure (net : Nat → GetResult) (bf : ℚ)
    (mr : Int) (status : Int) (content : String)
    (hnet : net 0 = .resp status content)
    (h200 : status ≠ 200) (h403 : status ≠ 403) (h429 : status ≠ 429)
    (hmr : 1 ≤ mr) :
    download_image net bf mr = ⟨false, 1, [], []⟩ := by
  obtain ⟨k, hk⟩ : ∃ k, mr.toNat = k + 1 := ⟨mr.toNat - 1, by omega⟩
  simp [download_image, hk, loop_succ, hnet, h200, h403, h429]

theorem c5_witness :
    download_image (fun _ => .resp 404 "nope") 1 3 = ⟨false, 1, [], []⟩ :=
  c5_download_image_permanent_failure (fun _ => .resp 404 "nope") 1 3 404 "nope"
    rfl (by decide) (by decide) (by decide) (by decide)

/-- C6: `download_images` returns exactly the number of URLs whose
`download_image` run succeeded (it is a total function of the oracle, so it
returns a count no matter how downloads fail); on the concrete input
`[a(200), b(403,403,403), c(200)]` with `max_retries = 3` it returns count 2
and performs exactly the two writes `image_1.jpg` and `image_3.jpg`. -/
theorem c6_download_images_count :
    (∀ (α : Type) (urls : List α) (dir : String) (net : α → Nat → GetResult)
        (mr : Int) (bf : ℚ),
      (download_images urls dir net mr bf).1 =
        urls.countP (fun u => (download_image (net u) bf mr).success)) ∧
    download_images ["a", "b", "c"] "out" netEx 3 1 =
      (2, [("out/image_1.jpg", "A"), ("out/image_3.jpg", "C")]) := by
  refine ⟨fun α urls dir net mr bf => download_images_go_count dir net mr bf urls 1, ?_⟩
  rfl

/-- C10: calling `download_image` with `max_retries <= 0` returns failure
immediately: no request is issued, no sleep happens, nothing is written. -/
theorem c10_download_image_nonpos_retries (net : Nat → GetResult) (bf : ℚ)
    (mr : Int) (h : mr ≤ 0) :
    download_image net bf mr = ⟨false, 0, [], []⟩ := by
  simp [download_image, Int.toNat_of_nonpos h, download_image_loop]

theorem c10_witness :
    download_image (fun _ => .resp 200 "body") 1 (-2) = ⟨false, 0, [], []⟩ :=
  c10_download_image_nonpos_retries (fun _ => .resp 200 "body") 1 (-2) (by decide)

/-! ## Claims about the orchestrator and the file system -/

/-- C8: `main` exits 2 when resolution yields no candidate, 0 when at least
one download succeeds, 1 when candidates exist but no download succeeds;
the three codes are pairwise distinct. -/
theorem c8_exit_codes (s1 : Stage1Env) (s2 : Stage2Env) (n : Int) (out : String)
    (net : JValue → Nat → GetResult) (urls : List JValue)
    (hres : (fetch_image_urls s1 s2 n).result = .ok urls) :
    (urls = [] → main_run s1 s2 n out net = .ok 2) ∧
    (urls ≠ [] → 0 < (download_images urls out net 3 1).1 →
      main_run s1 s2 n out net = .ok 0) ∧
    (urls ≠ [] → (download_images urls out net 3 1).1 = 0 →
      main_run s1 s2 n out net = .ok 1) ∧
    ((2 : Int) ≠ 0 ∧ (1 : Int) ≠ 0 ∧ (2 : Int) ≠ 1) := by
  have hempty : ∀ h : urls ≠ [], urls.isEmpty = false := by
    intro h
    cases hcase : urls with
    | nil => exact absurd hcase h
    | cons a l => rfl
  refine ⟨?_, ?_, ?_, by norm_num⟩
  · intro h
    simp [main_run, hres, h]
  · intro hne hok
    simp [main_run, hres, hempty hne, hok]
  · intro hne hzero
    simp [main_run, hres, hempty hne, hzero]

/-- Network behaviour whose every response is 200 with body "X". -/
def netOkEx : JValue → Nat → GetResult := fun _ _ => .resp 200 "X"

theorem c8_witness :
    main_run (.payload s1PayloadEx) .reqExn 5 "out" netOkEx = .ok 0 :=
  (c8_exit_codes (.payload s1PayloadEx) .reqExn 5 "out" netOkEx
      [.str "http://img/1.jpg"] rfl).2.1 (List.cons_ne_nil _ _) (by decide)

/-- The content the file named `n` ends with after a run of writes: the
last write of `n` in the run, if any. -/
def lastWrite (n : String) : List (String × String) → Option String
  | [] => none
  | (m, c) :: ws =>
    match lastWrite n ws with
    | some c' => some c'
    | none => if m = n then some c else none

theorem fsLookup_applyWrites (n : String) :
    ∀ (ws fs : List (String × String)),
      fsLookup n (applyWrites fs ws) =
        match lastWrite n ws with
        | some c => some c
        | none => fsLookup n fs
  | [], fs => by simp [applyWrites, lastWrite]
  | (m, c) :: ws, fs => by
    simp only [applyWrites]
    rw [fsLookup_applyWrites n ws ((m, c) :: fs)]
    cases hw : lastWrite n ws with
    | some c' => simp [lastWrite, hw]
    | none =>
      by_cases hm : m = n
      · simp [lastWrite, hw, hm, fsLookup]
      · simp [lastWrite, hw, hm, fsLookup]

theorem fsNames_applyWrites :
    ∀ (ws fs : List (String × String)),
      fsNames (applyWrites fs ws) = fsNames ws ∪ fsNames fs
  | [], fs => by simp [applyWrites, fsNames]
  | (m, c) :: ws, fs => by
    simp only [applyWrites]
    rw [fsNames_applyWrites ws ((m, c) :: fs)]
    ext a
    simp [fsNames]

theorem download_images_go_names {α : Type} (dir : String)
    (net : α → Nat → GetResult) (mr : Int) (bf : ℚ) :
    ∀ (urls : List α) (idx : Nat) (p : String × String),
      p ∈ (download_images_go dir net mr bf idx urls).2 →
      ∃ j, j < urls.length ∧ p.1 = posName dir (idx + j)
  | [], idx, p => by simp [download_images_go]
  | u :: rest, idx, p => by
    intro hp
    simp only [download_images_go, List.mem_append] at hp
    cases hp with
    | inl h =>
      obtain ⟨c, hc, hpc⟩ := List.mem_map.mp h
      exact ⟨0, by simp, by rw [← hpc]; simp⟩
    | inr h =>
      obtain ⟨j, hj, hpj⟩ := download_images_go_names dir net mr bf rest (idx + 1) p h
      refine ⟨j + 1, by simp; omega, ?_⟩
      rw [show idx + (j + 1) = idx + 1 + j from by omega]
      exact hpj

/-- C9: re-running `download_images` with the same inputs and responses
writes the same positional file names (`image_<i+1>.jpg` for some position
`i` of the URL list) and overwrites: after the second run the directory
holds exactly the same file names with the same contents as after the
first. -/
theorem c9_rerun_idempotent {α : Type} (urls : List α) (dir : String)
    (net : α → Nat → GetResult) (mr : Int) (bf : ℚ)
    (fs : List (String × String)) :
    fsNames (applyWrites (applyWrites fs (download_images urls dir net mr bf).2)
        (download_images urls dir net mr bf).2)
      = fsNames (applyWrites fs (download_images urls dir net mr bf).2) ∧
    (∀ n, fsLookup n (applyWrites (applyWrites fs (download_images urls dir net mr bf).2)
        (download_images urls dir net mr bf).2)
      = fsLookup n (applyWrites fs (download_images urls dir net mr bf).2)) ∧
    (∀ p ∈ (download_images urls dir net mr bf).2,
      ∃ i, i < urls.length ∧ p.1 = posName dir (i + 1)) := by
  set ws := (download_images urls dir net mr bf).2 with hws
  refine ⟨?_, ?_, ?_⟩
  · rw [fsNames_applyWrites, fsNames_applyWrites]
    ext a
    simp [Finset.mem_union]
  · intro n
    cases hw : lastWrite n ws with
    | some c =>
      rw [fsLookup_applyWrites n ws (applyWrites fs ws), fsLookup_applyWrites n ws fs, hw]
    | none =>
      rw [fsLookup_applyWrites n ws (applyWrites fs ws), hw]
  · intro p hp
    obtain ⟨j, hj, hpj⟩ := download_images_go_names dir net mr bf urls 1 p hp
    refine ⟨j, hj, ?_⟩
    rw [show j + 1 = 1 + j from by omega]
    exact hpj

theorem c9_witness :
    fsNames (applyWrites (applyWrites [] (download_images ["u"] "out" netEx 3 1).2)
        (download_images ["u"] "out" netEx 3 1).2)
      = fsNames (applyWrites [] (download_images ["u"] "out" netEx 3 1).2) :=
  (c9_rerun_idempotent ["u"] "out" netEx 3 1 []).1

end ImgGen
